import Mathlib

/-
Verification development for the runtime code-generation bridge of the
gpdb repository (backend/codegen), its append-only WAL record descriptor
(appendonlydesc.c), and the storage-manager segment-unlink collaborator
(mdunlink_co).

The codegen core (CodegenUtils / CodeGenerator) and md.c are exercised by
the unit tests shipped in the repository but their implementations are not
among the given sources; those parts are modelled from the specification,
as marked on each definition.  appendonly_desc is translated directly from
src/backend/access/rmgrdesc/appendonlydesc.c.
-/

namespace GpCodegen

/- ===== Type translator model (spec section 4.1) ===== -/

/-- Modelled from the spec: the closed tagged-variant scalar type
descriptor of design note 9 for the missing codegen_utils type translator
(void, bool, integers with width and signedness and long-ness, float,
double, enum over an underlying integer, opaque class or struct). -/
inductive ScalarKind where
  | voidK : ScalarKind
  | boolK : ScalarKind
  | intK (byteWidth : Nat) (unsigned : Bool) (isLong : Bool) (isLongLong : Bool) : ScalarKind
  | floatK : ScalarKind
  | doubleK : ScalarKind
  | enumK (tag : Nat) (underlying : ScalarKind) : ScalarKind
  | structK (tag : Nat) : ScalarKind
deriving DecidableEq, Repr

/-- Per-level cv-qualification of a C++ type (const and volatile flags). -/
structure CVQual where
  isConst : Bool
  isVolatile : Bool
deriving DecidableEq, Repr

/-- Modelled from the spec: a C++ type descriptor consumed by the missing
type translator: a cv-qualified scalar, a cv-qualified pointer, or a
reference (references themselves carry no cv-qualification). -/
inductive CType where
  | scalar (kind : ScalarKind) (q : CVQual) : CType
  | pointer (inner : CType) (q : CVQual) : CType
  | reference (inner : CType) : CType
deriving DecidableEq, Repr

/-- Modelled from the spec: LLVM IR types as used by the missing codegen
core.  LLVM interns types structurally, so equality of these values models
identity of llvm Type instances. -/
inductive IRType where
  | voidTy : IRType
  | intTy (bits : Nat) : IRType
  | floatTy : IRType
  | doubleTy : IRType
  | pointerTy (pointee : IRType) : IRType
deriving DecidableEq, Repr

/-- Modelled from the spec: scalar part of GetType: void maps to the void
IR type, bool to a 1-bit integer, integers to IR integers sized by
physical byte width with signedness dropped, float and double map 1:1,
an enum maps to the IR type of its underlying representation. -/
def scalarIRType : ScalarKind → IRType
  | .voidK => .voidTy
  | .boolK => .intTy 1
  | .intK w _ _ _ => .intTy (w * 8)
  | .floatK => .floatTy
  | .doubleK => .doubleTy
  | .enumK _ u => scalarIRType u
  | .structK _ => .intTy 8

/-- Modelled from the spec: a pointee that is void or a class or struct
type becomes an opaque single-byte element in the IR. -/
def isOpaquePointee : CType → Bool
  | .scalar .voidK _ => true
  | .scalar (.structK _) _ => true
  | _ => false

/-- Modelled from the spec: GetType of the missing codegen_utils.  The
outer indirection of a pointer or reference always becomes a real IR
pointer; an opaque pointee becomes a single-byte integer element;
references translate identically to pointers at the IR level. -/
def GetType : CType → IRType
  | .scalar k _ => scalarIRType k
  | .pointer inner _ =>
      if isOpaquePointee inner then .pointerTy (.intTy 8)
      else .pointerTy (GetType inner)
  | .reference inner =>
      if isOpaquePointee inner then .pointerTy (.intTy 8)
      else .pointerTy (GetType inner)

/-- The AnnotatedType record of the spec data model: the IR type plus the
host-language properties the IR discards. -/
structure AnnotatedType where
  llvm_type : IRType
  is_voidptr : Bool
  is_reference : Bool
  explicitly_unsigned : Bool
  is_long : Bool
  is_long_long : Bool
  is_const : List Bool
  is_volatile : List Bool
deriving DecidableEq, Repr

/-- Strip all pointer and reference indirections down to the scalar core. -/
def stripIndirections : CType → CType
  | .pointer inner _ => stripIndirections inner
  | .reference inner => stripIndirections inner
  | t => t

/-- The scalar kind at the core of a type. -/
def scalarKindOf (t : CType) : ScalarKind :=
  match stripIndirections t with
  | .scalar k _ => k
  | _ => .voidK

/-- Whether a scalar kind is explicitly unsigned (an unsigned arithmetic
type other than bool, or an enum represented as one). -/
def scalarUnsigned : ScalarKind → Bool
  | .intK _ u _ _ => u
  | .enumK _ u => scalarUnsigned u
  | _ => false

/-- Whether a scalar kind is long (or an enum whose underlying type is). -/
def scalarIsLong : ScalarKind → Bool
  | .intK _ _ l _ => l
  | .enumK _ u => scalarIsLong u
  | _ => false

/-- Whether a scalar kind is long long (or an enum whose underlying type is). -/
def scalarIsLongLong : ScalarKind → Bool
  | .intK _ _ _ ll => ll
  | .enumK _ u => scalarIsLongLong u
  | _ => false

/-- Whether a scalar kind is void or a class or struct type. -/
def scalarIsVoidOrClass : ScalarKind → Bool
  | .voidK => true
  | .structK _ => true
  | _ => false

/-- Number of pointer or reference indirections of a type. -/
def indirectionDepth : CType → Nat
  | .scalar _ _ => 0
  | .pointer inner _ => indirectionDepth inner + 1
  | .reference inner => indirectionDepth inner + 1

/-- Const qualification per indirection level, innermost scalar first;
the level of a reference is always unqualified. -/
def constByLevel : CType → List Bool
  | .scalar _ q => [q.isConst]
  | .pointer inner q => constByLevel inner ++ [q.isConst]
  | .reference inner => constByLevel inner ++ [false]

/-- Volatile qualification per indirection level, innermost scalar first;
the level of a reference is always unqualified. -/
def volatileByLevel : CType → List Bool
  | .scalar _ q => [q.isVolatile]
  | .pointer inner q => volatileByLevel inner ++ [q.isVolatile]
  | .reference inner => volatileByLevel inner ++ [false]

/-- Whether the outermost type is a reference. -/
def isRefType : CType → Bool
  | .reference _ => true
  | _ => false

/-- Modelled from the spec: GetAnnotatedType of the missing codegen core:
the IR type together with the annotation record (voidptr-ness,
reference-ness, signedness, long-ness, and per-level cv-qualification,
innermost first). -/
def GetAnnotatedType (t : CType) : AnnotatedType :=
  ⟨GetType t,
   decide (indirectionDepth t ≠ 0) && scalarIsVoidOrClass (scalarKindOf t),
   isRefType t,
   scalarUnsigned (scalarKindOf t),
   scalarIsLong (scalarKindOf t),
   scalarIsLongLong (scalarKindOf t),
   constByLevel t,
   volatileByLevel t⟩

theorem constByLevel_length (t : CType) :
    (constByLevel t).length = indirectionDepth t + 1 := by
  induction t with
  | scalar k q => rfl
  | pointer inner q ih =>
      simp [constByLevel, indirectionDepth, ih]
  | reference inner ih =>
      simp [constByLevel, indirectionDepth, ih]

theorem volatileByLevel_length (t : CType) :
    (volatileByLevel t).length = indirectionDepth t + 1 := by
  induction t with
  | scalar k q => rfl
  | pointer inner q ih =>
      simp [volatileByLevel, indirectionDepth, ih]
  | reference inner ih =>
      simp [volatileByLevel, indirectionDepth, ih]

/-- Whether a scalar kind is a built-in integer representation (a bool or
an integer of some width), as required of an enum underlying type. -/
def isIntegerRep : ScalarKind → Bool
  | .boolK => true
  | .intK _ _ _ _ => true
  | _ => false

/-- C4: for every type with indirection depth at most 2, the annotation
returned by GetAnnotatedType has is_const and is_volatile sequences of
length equal to the indirection depth plus 1 (innermost scalar level
first), and when the outermost type is a reference the outermost level of
both sequences is false. -/
theorem C4_annotation_levels (t : CType) (h : indirectionDepth t ≤ 2) :
    (GetAnnotatedType t).is_const.length = indirectionDepth t + 1 ∧
    (GetAnnotatedType t).is_volatile.length = indirectionDepth t + 1 ∧
    (isRefType t = true →
      (GetAnnotatedType t).is_const.getLast? = some false ∧
      (GetAnnotatedType t).is_volatile.getLast? = some false) := by
  refine ⟨constByLevel_length t, volatileByLevel_length t, ?_⟩
  intro href
  cases t with
  | scalar k q => simp [isRefType] at href
  | pointer inner q => simp [isRefType] at href
  | reference inner =>
      constructor
      · show (constByLevel inner ++ [false]).getLast? = some false
        exact List.getLast?_concat _
      · show (volatileByLevel inner ++ [false]).getLast? = some false
        exact List.getLast?_concat _

/-- Witness for C4 at the concrete type: reference to a const-volatile
pointer to a const int (indirection depth 2). -/
theorem C4_annotation_levels_witness :
    indirectionDepth
        (CType.reference (CType.pointer
          (CType.scalar (ScalarKind.intK 4 false false false) ⟨true, false⟩)
          ⟨true, true⟩)) ≤ 2 ∧
    ((GetAnnotatedType
        (CType.reference (CType.pointer
          (CType.scalar (ScalarKind.intK 4 false false false) ⟨true, false⟩)
          ⟨true, true⟩))).is_const.length
      = indirectionDepth
          (CType.reference (CType.pointer
            (CType.scalar (ScalarKind.intK 4 false false false) ⟨true, false⟩)
            ⟨true, true⟩)) + 1 ∧
     (GetAnnotatedType
        (CType.reference (CType.pointer
          (CType.scalar (ScalarKind.intK 4 false false false) ⟨true, false⟩)
          ⟨true, true⟩))).is_volatile.length
      = indirectionDepth
          (CType.reference (CType.pointer
            (CType.scalar (ScalarKind.intK 4 false false false) ⟨true, false⟩)
            ⟨true, true⟩)) + 1 ∧
     (isRefType
        (CType.reference (CType.pointer
          (CType.scalar (ScalarKind.intK 4 false false false) ⟨true, false⟩)
          ⟨true, true⟩)) = true →
       (GetAnnotatedType
          (CType.reference (CType.pointer
            (CType.scalar (ScalarKind.intK 4 false false false) ⟨true, false⟩)
            ⟨true, true⟩))).is_const.getLast? = some false ∧
       (GetAnnotatedType
          (CType.reference (CType.pointer
            (CType.scalar (ScalarKind.intK 4 false false false) ⟨true, false⟩)
            ⟨true, true⟩))).is_volatile.getLast? = some false)) :=
  ⟨by decide,
   C4_annotation_levels
     (CType.reference (CType.pointer
       (CType.scalar (ScalarKind.intK 4 false false false) ⟨true, false⟩)
       ⟨true, true⟩))
     (by decide)⟩

/-- C5: two enum types sharing the same underlying integer representation
map through GetType to the identical IR type instance, which is also the
IR type instance of the underlying integer itself; likewise pointers to
those enums and pointers to the underlying integer. -/
theorem C5_enum_type_interning (tag1 tag2 : Nat) (u : ScalarKind)
    (q1 q2 q3 qp : CVQual) (hu : isIntegerRep u = true) :
    GetType (CType.scalar (ScalarKind.enumK tag1 u) q1)
      = GetType (CType.scalar (ScalarKind.enumK tag2 u) q2) ∧
    GetType (CType.scalar (ScalarKind.enumK tag1 u) q1)
      = GetType (CType.scalar u q3) ∧
    GetType (CType.pointer (CType.scalar (ScalarKind.enumK tag1 u) q1) qp)
      = GetType (CType.pointer (CType.scalar (ScalarKind.enumK tag2 u) q2) qp) ∧
    GetType (CType.pointer (CType.scalar (ScalarKind.enumK tag1 u) q1) qp)
      = GetType (CType.pointer (CType.scalar u q3) qp) := by
  cases u with
  | boolK => simp [GetType, scalarIRType, isOpaquePointee]
  | intK w un l ll => simp [GetType, scalarIRType, isOpaquePointee]
  | voidK => simp [isIntegerRep] at hu
  | floatK => simp [isIntegerRep] at hu
  | doubleK => simp [isIntegerRep] at hu
  | enumK tag u => simp [isIntegerRep] at hu
  | structK tag => simp [isIntegerRep] at hu

/-- Witness for C5 at two distinct enums over unsigned 4-byte int. -/
theorem C5_enum_type_interning_witness :
    isIntegerRep (ScalarKind.intK 4 true false false) = true ∧
    (GetType (CType.scalar
        (ScalarKind.enumK 0 (ScalarKind.intK 4 true false false)) ⟨false, false⟩)
      = GetType (CType.scalar
          (ScalarKind.enumK 1 (ScalarKind.intK 4 true false false)) ⟨true, false⟩) ∧
     GetType (CType.scalar
        (ScalarKind.enumK 0 (ScalarKind.intK 4 true false false)) ⟨false, false⟩)
      = GetType (CType.scalar (ScalarKind.intK 4 true false false) ⟨false, false⟩) ∧
     GetType (CType.pointer (CType.scalar
        (ScalarKind.enumK 0 (ScalarKind.intK 4 true false false)) ⟨false, false⟩)
        ⟨false, false⟩)
      = GetType (CType.pointer (CType.scalar
          (ScalarKind.enumK 1 (ScalarKind.intK 4 true false false)) ⟨true, false⟩)
          ⟨false, false⟩) ∧
     GetType (CType.pointer (CType.scalar
        (ScalarKind.enumK 0 (ScalarKind.intK 4 true false false)) ⟨false, false⟩)
        ⟨false, false⟩)
      = GetType (CType.pointer
          (CType.scalar (ScalarKind.intK 4 true false false) ⟨false, false⟩)
          ⟨false, false⟩)) :=
  ⟨by decide,
   C5_enum_type_interning 0 1 (ScalarKind.intK 4 true false false)
     ⟨false, false⟩ ⟨true, false⟩ ⟨false, false⟩ ⟨false, false⟩ (by decide)⟩

/- ===== Constant materializer model, integers (spec section 4.2) ===== -/

/-- Bit width and unsignedness of an integer-like scalar kind (bool is a
1-bit unsigned value, integers have 8 bits per byte, an enum takes the
width and signedness of its underlying representation). -/
def intInfo : ScalarKind → Option (Nat × Bool)
  | .boolK => some (1, true)
  | .intK w u _ _ => some (w * 8, u)
  | .enumK _ u => intInfo u
  | _ => none

/-- An LLVM APInt: a bit width together with a bit pattern below 2 to
that width. -/
structure APInt where
  bits : Nat
  pattern : Nat
deriving DecidableEq, Repr

/-- Zero-extended reading of an APInt bit pattern. -/
def APInt.getZExtValue (a : APInt) : Nat := a.pattern

/-- Sign-extended reading of an APInt bit pattern. -/
def APInt.getSExtValue (a : APInt) : Int :=
  if a.pattern < 2 ^ (a.bits - 1) then (a.pattern : Int)
  else (a.pattern : Int) - 2 ^ a.bits

/-- Modelled from the spec: the literal encoding the missing GetConstant
performs for an integer value: the value reduced into a bit pattern of
the declared width. -/
def GetConstantBits (bits : Nat) (v : Int) : APInt :=
  ⟨bits, (v % ((2 : Int) ^ bits)).toNat⟩

/-- Modelled from the spec: GetConstant of the missing codegen core for an
integer, boolean, or enum scalar kind: none for non-integer kinds. -/
def GetConstant (k : ScalarKind) (v : Int) : Option APInt :=
  match intInfo k with
  | some p => some (GetConstantBits p.1 v)
  | none => none

/-- Reading a materialized constant back, sign-extended if the declared
type is signed and zero-extended if it is unsigned. -/
def readBackInt (unsigned : Bool) (a : APInt) : Int :=
  if unsigned then (a.getZExtValue : Int) else a.getSExtValue

/-- Whether an integer value is representable in the declared type. -/
def inRange (bits : Nat) (unsigned : Bool) (v : Int) : Bool :=
  if unsigned then decide (0 ≤ v) && decide (v < (2 : Int) ^ bits)
  else decide (-((2 : Int) ^ (bits - 1)) ≤ v) && decide (v < (2 : Int) ^ (bits - 1))

theorem GetConstantBits_roundtrip (bits : Nat) (unsigned : Bool) (v : Int)
    (hb : 0 < bits) (hr : inRange bits unsigned v = true) :
    readBackInt unsigned (GetConstantBits bits v) = v := by
  have hpow : ((2 : Int) ^ bits) = 2 * (2 : Int) ^ (bits - 1) := by
    conv_lhs => rw [show bits = (bits - 1) + 1 by omega]
    rw [pow_succ]
    ring
  have hcast : (((2 : Nat) ^ (bits - 1) : Nat) : Int) = (2 : Int) ^ (bits - 1) := by
    push_cast
    ring
  have hhalfpos : (0 : Int) < (2 : Int) ^ (bits - 1) := by positivity
  cases unsigned with
  | true =>
      simp only [inRange, if_true, Bool.and_eq_true, decide_eq_true_eq] at hr
      obtain ⟨h0, hlt⟩ := hr
      have hmod : v % ((2 : Int) ^ bits) = v := Int.emod_eq_of_lt h0 hlt
      simp only [readBackInt, GetConstantBits, APInt.getZExtValue, hmod, if_true]
      omega
  | false =>
      simp only [inRange, Bool.false_eq_true, if_false, Bool.and_eq_true,
        decide_eq_true_eq] at hr
      obtain ⟨hlo, hhi⟩ := hr
      rcases le_or_lt 0 v with hpos | hneg
      · have hlt : v < (2 : Int) ^ bits := by omega
        have hmod : v % ((2 : Int) ^ bits) = v := Int.emod_eq_of_lt hpos hlt
        simp only [readBackInt, GetConstantBits, APInt.getSExtValue,
          Bool.false_eq_true, if_false]
        rw [hmod]
        rw [if_pos (by omega)]
        omega
      · have hmod : v % ((2 : Int) ^ bits) = v + (2 : Int) ^ bits := by
          have h1 : (v + (2 : Int) ^ bits * 1) % ((2 : Int) ^ bits)
              = v % ((2 : Int) ^ bits) :=
            Int.add_mul_emod_self_left v ((2 : Int) ^ bits) 1
          rw [mul_one] at h1
          rw [← h1]
          exact Int.emod_eq_of_lt (by omega) (by omega)
        simp only [readBackInt, GetConstantBits, APInt.getSExtValue,
          Bool.false_eq_true, if_false]
        rw [hmod]
        rw [if_neg (by omega)]
        omega

/-- C3: for every built-in integer, boolean, or enum type and every
representable value, materializing the value with GetConstant and reading
it back (sign-extended if the declared type is signed, zero-extended if
unsigned) reproduces the original value exactly. -/
theorem C3_integer_constant_roundtrip (k : ScalarKind) (bits : Nat)
    (unsigned : Bool) (v : Int) (hinfo : intInfo k = some (bits, unsigned))
    (hb : 0 < bits) (hr : inRange bits unsigned v = true) :
    ∃ a : APInt, GetConstant k v = some a ∧ readBackInt unsigned a = v := by
  refine ⟨GetConstantBits bits v, ?_, GetConstantBits_roundtrip bits unsigned v hb hr⟩
  simp [GetConstant, hinfo]

/-- Witness for C3 at the boundary values of a signed 8-bit integer
(minimum, -1, maximum), an unsigned 64-bit integer (0 and maximum), and
the boolean value 1. -/
theorem C3_integer_constant_roundtrip_witness :
    (∃ a : APInt, GetConstant (ScalarKind.intK 1 false false false) (-128) = some a ∧
      readBackInt false a = -128) ∧
    (∃ a : APInt, GetConstant (ScalarKind.intK 1 false false false) (-1) = some a ∧
      readBackInt false a = -1) ∧
    (∃ a : APInt, GetConstant (ScalarKind.intK 1 false false false) 127 = some a ∧
      readBackInt false a = 127) ∧
    (∃ a : APInt, GetConstant (ScalarKind.intK 8 true false true) 0 = some a ∧
      readBackInt true a = 0) ∧
    (∃ a : APInt, GetConstant (ScalarKind.intK 8 true false true)
        ((2 : Int) ^ 64 - 1) = some a ∧
      readBackInt true a = (2 : Int) ^ 64 - 1) ∧
    (∃ a : APInt, GetConstant ScalarKind.boolK 1 = some a ∧
      readBackInt true a = 1) :=
  ⟨C3_integer_constant_roundtrip (ScalarKind.intK 1 false false false) 8 false
      (-128) (by decide) (by decide) (by decide),
   C3_integer_constant_roundtrip (ScalarKind.intK 1 false false false) 8 false
      (-1) (by decide) (by decide) (by decide),
   C3_integer_constant_roundtrip (ScalarKind.intK 1 false false false) 8 false
      127 (by decide) (by decide) (by decide),
   C3_integer_constant_roundtrip (ScalarKind.intK 8 true false true) 64 true
      0 (by decide) (by decide) (by decide),
   C3_integer_constant_roundtrip (ScalarKind.intK 8 true false true) 64 true
      ((2 : Int) ^ 64 - 1) (by decide) (by decide) (by decide),
   C3_integer_constant_roundtrip ScalarKind.boolK 1 true 1
      (by decide) (by decide) (by decide)⟩

/- ===== Constant materializer model, floating point (spec section 4.2) ===== -/

/-- An IEEE 754 binary interchange format: exponent and mantissa widths. -/
structure FPFormat where
  expBits : Nat
  mantBits : Nat
deriving DecidableEq, Repr

/-- The IEEE 754 single precision format (C float). -/
def binary32 : FPFormat := ⟨8, 23⟩

/-- The IEEE 754 double precision format (C double). -/
def binary64 : FPFormat := ⟨11, 52⟩

/-- The fields of an IEEE 754 value: sign bit, biased exponent field,
mantissa field.  This represents the host floating point value exactly as
it sits in memory. -/
structure FPTriple where
  sign : Bool
  exponent : Nat
  mantissa : Nat
deriving DecidableEq, Repr

/-- Pack the fields of an IEEE 754 value into its bit pattern. -/
def packBits (fmt : FPFormat) (t : FPTriple) : Nat :=
  ((if t.sign then 1 else 0) * 2 ^ fmt.expBits + t.exponent) * 2 ^ fmt.mantBits
    + t.mantissa

/-- Unpack a bit pattern into the fields of an IEEE 754 value. -/
def unpackBits (fmt : FPFormat) (bits : Nat) : FPTriple :=
  ⟨decide (bits / 2 ^ (fmt.expBits + fmt.mantBits) % 2 = 1),
   bits / 2 ^ fmt.mantBits % 2 ^ fmt.expBits,
   bits % 2 ^ fmt.mantBits⟩

/-- An LLVM APFloat: a format together with the stored bit pattern. -/
structure APFloat where
  expBits : Nat
  mantBits : Nat
  bits : Nat
deriving DecidableEq, Repr

/-- Modelled from the spec: GetConstant of the missing codegen core for a
float or double host value: the IR constant stores the bit pattern of the
host value with no rounding or normalization. -/
def GetConstantFP (fmt : FPFormat) (t : FPTriple) : APFloat :=
  ⟨fmt.expBits, fmt.mantBits, packBits fmt t⟩

/-- Reading the fields back out of a materialized floating constant. -/
def APFloat.toTriple (a : APFloat) : FPTriple :=
  unpackBits ⟨a.expBits, a.mantBits⟩ a.bits

/-- The floating values named by the claim for a format: positive zero,
negative zero, minimum normalized, maximum normalized, smallest denormal,
infinity, and a quiet NaN. -/
def specialFPValues (fmt : FPFormat) : List FPTriple :=
  [⟨false, 0, 0⟩,
   ⟨true, 0, 0⟩,
   ⟨false, 1, 0⟩,
   ⟨false, 2 ^ fmt.expBits - 2, 2 ^ fmt.mantBits - 1⟩,
   ⟨false, 0, 1⟩,
   ⟨false, 2 ^ fmt.expBits - 1, 0⟩,
   ⟨false, 2 ^ fmt.expBits - 1, 2 ^ (fmt.mantBits - 1)⟩]

theorem unpackBits_packBits (fmt : FPFormat) (t : FPTriple)
    (he : t.exponent < 2 ^ fmt.expBits) (hm : t.mantissa < 2 ^ fmt.mantBits) :
    unpackBits fmt (packBits fmt t) = t := by
  obtain ⟨s, e, m⟩ := t
  simp only at he hm
  have hwm : 0 < 2 ^ fmt.mantBits := Nat.pow_pos (by omega)
  have hwem : 0 < 2 ^ (fmt.expBits + fmt.mantBits) := Nat.pow_pos (by omega)
  have hshape : packBits fmt ⟨s, e, m⟩
      = (e * 2 ^ fmt.mantBits + m)
        + (if s then 1 else 0) * 2 ^ (fmt.expBits + fmt.mantBits) := by
    simp only [packBits]
    rw [pow_add]
    ring
  have hbound : e * 2 ^ fmt.mantBits + m < 2 ^ (fmt.expBits + fmt.mantBits) := by
    have h1 : (e + 1) * 2 ^ fmt.mantBits ≤ 2 ^ fmt.expBits * 2 ^ fmt.mantBits :=
      Nat.mul_le_mul_right _ he
    calc e * 2 ^ fmt.mantBits + m
        < (e + 1) * 2 ^ fmt.mantBits := by
          have : (e + 1) * 2 ^ fmt.mantBits = e * 2 ^ fmt.mantBits + 2 ^ fmt.mantBits := by
            ring
          omega
      _ ≤ 2 ^ fmt.expBits * 2 ^ fmt.mantBits := h1
      _ = 2 ^ (fmt.expBits + fmt.mantBits) := (pow_add 2 fmt.expBits fmt.mantBits).symm
  have h1 : packBits fmt ⟨s, e, m⟩ % 2 ^ fmt.mantBits = m := by
    simp only [packBits]
    rw [Nat.add_comm, Nat.add_mul_mod_self_right]
    exact Nat.mod_eq_of_lt hm
  have hd : packBits fmt ⟨s, e, m⟩ / 2 ^ fmt.mantBits
      = (if s then 1 else 0) * 2 ^ fmt.expBits + e := by
    simp only [packBits]
    rw [Nat.add_comm, Nat.add_mul_div_right _ _ hwm, Nat.div_eq_of_lt hm]
    omega
  have h2 : packBits fmt ⟨s, e, m⟩ / 2 ^ fmt.mantBits % 2 ^ fmt.expBits = e := by
    rw [hd, mul_comm, Nat.mul_add_mod]
    exact Nat.mod_eq_of_lt he
  have h3 : packBits fmt ⟨s, e, m⟩ / 2 ^ (fmt.expBits + fmt.mantBits) % 2
      = if s then 1 else 0 := by
    rw [hshape, Nat.add_mul_div_right _ _ hwem, Nat.div_eq_of_lt hbound]
    cases s <;> rfl
  simp only [unpackBits, h1, h2, h3]
  cases s <;> simp

/-- C6: for every float or double value among positive zero, negative
zero, the minimum and maximum normalized values, the smallest denormal,
infinity, and NaN, GetConstant produces an IR floating-point constant
whose bit pattern is exactly the bit pattern of the input, with no
rounding or normalization (reading the fields back reproduces the input
exactly). -/
theorem C6_float_bit_pattern_preserved (fmt : FPFormat)
    (hfmt : fmt = binary32 ∨ fmt = binary64) (t : FPTriple)
    (ht : t ∈ specialFPValues fmt) :
    (GetConstantFP fmt t).bits = packBits fmt t ∧
    (GetConstantFP fmt t).toTriple = t := by
  have hwe : 0 < fmt.expBits := by rcases hfmt with rfl | rfl <;> decide
  have hwm : 0 < fmt.mantBits := by rcases hfmt with rfl | rfl <;> decide
  refine ⟨rfl, ?_⟩
  have htr : (GetConstantFP fmt t).toTriple = unpackBits fmt (packBits fmt t) := rfl
  rw [htr]
  have h2e : (2 : Nat) ≤ 2 ^ fmt.expBits := by
    calc (2 : Nat) = 2 ^ 1 := rfl
      _ ≤ 2 ^ fmt.expBits := Nat.pow_le_pow_right (by omega) hwe
  have h2m : (2 : Nat) ≤ 2 ^ fmt.mantBits := by
    calc (2 : Nat) = 2 ^ 1 := rfl
      _ ≤ 2 ^ fmt.mantBits := Nat.pow_le_pow_right (by omega) hwm
  have hhalf : 2 ^ (fmt.mantBits - 1) < 2 ^ fmt.mantBits := by
    have hsplit : 2 ^ fmt.mantBits = 2 * 2 ^ (fmt.mantBits - 1) := by
      conv_lhs => rw [show fmt.mantBits = (fmt.mantBits - 1) + 1 by omega]
      rw [pow_succ]
      ring
    have hp : 0 < 2 ^ (fmt.mantBits - 1) := Nat.pow_pos (by omega)
    omega
  apply unpackBits_packBits
  all_goals {
    simp only [specialFPValues, List.mem_cons, List.not_mem_nil, or_false] at ht
    rcases ht with rfl | rfl | rfl | rfl | rfl | rfl | rfl <;> dsimp only <;> omega
  }

/-- Witness for C6 at the single-precision infinity value. -/
theorem C6_float_bit_pattern_preserved_witness :
    (GetConstantFP binary32 ⟨false, 255, 0⟩).bits
      = packBits binary32 ⟨false, 255, 0⟩ ∧
    (GetConstantFP binary32 ⟨false, 255, 0⟩).toTriple = ⟨false, 255, 0⟩ :=
  C6_float_bit_pattern_preserved binary32 (Or.inl rfl) ⟨false, 255, 0⟩ (by decide)

/- ===== Constant materializer model, pointers (spec section 4.2) ===== -/

/-- An IR constant produced for a host pointer value: either the canonical
null constant of a pointer type, an anonymous external global placeholder
(identified by its index in the generator's global table), or a literal
integer address (which GetConstant must never produce for a pointer). -/
inductive PtrConstant where
  | nullConst (ty : IRType) : PtrConstant
  | globalPlaceholder (ty : IRType) (idx : Nat) : PtrConstant
  | literalAddress (ty : IRType) (addr : Nat) : PtrConstant
deriving DecidableEq, Repr

/-- The generator's table of anonymous external globals: placeholder index
to recorded host address. -/
structure GlobalTable where
  addrs : List Nat
deriving DecidableEq, Repr

/-- Modelled from the spec: GetConstant of the missing codegen core for a
host pointer value: a null host pointer becomes the canonical null
constant of the matching pointer type; a non-null host pointer is bound to
a fresh anonymous external global placeholder whose address is recorded
for resolution at compile time, never embedded as a literal integer. -/
def GetConstantPtr (s : GlobalTable) (ty : IRType) (addr : Nat) :
    PtrConstant × GlobalTable :=
  if addr = 0 then (.nullConst ty, s)
  else (.globalPlaceholder ty s.addrs.length, ⟨s.addrs ++ [addr]⟩)

/-- Modelled from the spec: the address a pointer constant resolves to
when PrepareForExecution links the module: placeholders resolve against
the addresses recorded at materialization time. -/
def resolveAtLink (s : GlobalTable) : PtrConstant → Option Nat
  | .nullConst _ => some 0
  | .globalPlaceholder _ idx => s.addrs[idx]?
  | .literalAddress _ addr => some addr

/-- C2: for every host pointer value, GetConstant yields the canonical
null constant of the matching IR pointer type when the pointer is null;
when it is non-null, the result is an anonymous external global
placeholder, never a literal integer address, and after compilation that
placeholder resolves to exactly the original host address. -/
theorem C2_pointer_constant (s : GlobalTable) (ty : IRType) (addr : Nat) :
    (addr = 0 → (GetConstantPtr s ty addr).1 = PtrConstant.nullConst ty) ∧
    (addr ≠ 0 →
      ∃ idx : Nat,
        (GetConstantPtr s ty addr).1 = PtrConstant.globalPlaceholder ty idx ∧
        (∀ a : Nat, (GetConstantPtr s ty addr).1 ≠ PtrConstant.literalAddress ty a) ∧
        resolveAtLink (GetConstantPtr s ty addr).2 (GetConstantPtr s ty addr).1
          = some addr) := by
  constructor
  · intro h0
    simp [GetConstantPtr, h0]
  · intro hnz
    refine ⟨s.addrs.length, ?_, ?_, ?_⟩
    · simp [GetConstantPtr, hnz]
    · intro a
      simp [GetConstantPtr, hnz]
    · simp only [GetConstantPtr, hnz, if_neg, if_false]
      show resolveAtLink ⟨s.addrs ++ [addr]⟩
        (PtrConstant.globalPlaceholder ty s.addrs.length) = some addr
      simp [resolveAtLink]

/-- Witness for C2 with an empty global table, at the null pointer and at
host address 7. -/
theorem C2_pointer_constant_witness :
    ((0 : Nat) = 0 →
      (GetConstantPtr ⟨[]⟩ (IRType.pointerTy (IRType.intTy 8)) 0).1
        = PtrConstant.nullConst (IRType.pointerTy (IRType.intTy 8))) ∧
    ((7 : Nat) ≠ 0 →
      ∃ idx : Nat,
        (GetConstantPtr ⟨[]⟩ (IRType.pointerTy (IRType.intTy 8)) 7).1
          = PtrConstant.globalPlaceholder (IRType.pointerTy (IRType.intTy 8)) idx ∧
        (∀ a : Nat,
          (GetConstantPtr ⟨[]⟩ (IRType.pointerTy (IRType.intTy 8)) 7).1
            ≠ PtrConstant.literalAddress (IRType.pointerTy (IRType.intTy 8)) a) ∧
        resolveAtLink (GetConstantPtr ⟨[]⟩ (IRType.pointerTy (IRType.intTy 8)) 7).2
            (GetConstantPtr ⟨[]⟩ (IRType.pointerTy (IRType.intTy 8)) 7).1
          = some 7) :=
  ⟨(C2_pointer_constant ⟨[]⟩ (IRType.pointerTy (IRType.intTy 8)) 0).1,
   fun _ => (C2_pointer_constant ⟨[]⟩ (IRType.pointerTy (IRType.intTy 8)) 7).2
     (by decide)⟩

/- ===== Member address calculator model (spec section 4.3) ===== -/

/-- Modelled from the spec: IR values as produced by the instruction
builder of the missing codegen core, as far as address computation is
concerned: resolved pointer constants, function arguments, byte-offset
address computation, and memory loads. -/
inductive IRValue where
  | constPtr (addr : Nat) : IRValue
  | argument (idx : Nat) : IRValue
  | gepByte (base : IRValue) (offset : Nat) : IRValue
  | load (src : IRValue) : IRValue
deriving DecidableEq, Repr

/-- Whether an IR value is computed without dereferencing memory. -/
def derefFree : IRValue → Bool
  | .constPtr _ => true
  | .argument _ => true
  | .gepByte b _ => derefFree b
  | .load _ => false

/-- Evaluation of an IR value over a memory state and argument values:
address computation adds the byte offset, a load reads memory. -/
def evalIRValue (mem : Nat → Nat) (args : Nat → Nat) : IRValue → Nat
  | .constPtr a => a
  | .argument i => args i
  | .gepByte b o => evalIRValue mem args b + o
  | .load s => mem (evalIRValue mem args s)

/-- Modelled from the spec: GetPointerToMember of the missing codegen
core.  Given the instruction-insertion context, an IR base pointer (absent
means the caller passed a null llvm Value, a fatal precondition violation)
and the byte offsets of an ordered chain of member descriptors, it emits
pure address computation adding each offset in turn; the empty chain
returns the base pointer unchanged.  A none result models a fatal abort. -/
def GetPointerToMember (insertActive : Bool) (base : Option IRValue)
    (offsets : List Nat) : Option IRValue :=
  if insertActive = false then none
  else
    match base with
    | none => none
    | some b => some (offsets.foldl (fun acc o => IRValue.gepByte acc o) b)

theorem evalIRValue_foldl_gep (mem : Nat → Nat) (args : Nat → Nat)
    (b : IRValue) (offsets : List Nat) :
    evalIRValue mem args (offsets.foldl (fun acc o => IRValue.gepByte acc o) b)
      = evalIRValue mem args b + offsets.sum := by
  induction offsets generalizing b with
  | nil => simp
  | cons o rest ih =>
      simp only [List.foldl_cons, List.sum_cons]
      rw [ih]
      simp [evalIRValue]
      omega

theorem derefFree_foldl_gep (b : IRValue) (offsets : List Nat) :
    derefFree (offsets.foldl (fun acc o => IRValue.gepByte acc o) b)
      = derefFree b := by
  induction offsets generalizing b with
  | nil => rfl
  | cons o rest ih =>
      simp only [List.foldl_cons]
      rw [ih]
      rfl

/-- C1: inside an active insertion context, for every base pointer
(including the constant for a null host pointer) and every ordered chain
of member byte offsets, GetPointerToMember succeeds with a pure address
computation (no memory dereference is introduced) whose compiled result
equals the base address plus the sum of the offsets, and for an empty
chain it returns the base pointer unchanged. -/
theorem C1_pointer_to_member_offset_sum (b : IRValue) (offsets : List Nat) :
    ∃ v : IRValue,
      GetPointerToMember true (some b) offsets = some v ∧
      derefFree v = derefFree b ∧
      (∀ mem args : Nat → Nat,
        evalIRValue mem args v = evalIRValue mem args b + offsets.sum) ∧
      (offsets = [] → v = b) := by
  refine ⟨offsets.foldl (fun acc o => IRValue.gepByte acc o) b, ?_, ?_, ?_, ?_⟩
  · rfl
  · exact derefFree_foldl_gep b offsets
  · intro mem args
    exact evalIRValue_foldl_gep mem args b offsets
  · intro h
    subst h
    rfl

/-- Witness for C1 at a null-host-pointer constant base with offset chain
[4, 8, 1], and at the empty chain. -/
theorem C1_pointer_to_member_offset_sum_witness :
    (∃ v : IRValue,
      GetPointerToMember true (some (IRValue.constPtr 0)) [4, 8, 1] = some v ∧
      derefFree v = derefFree (IRValue.constPtr 0) ∧
      (∀ mem args : Nat → Nat,
        evalIRValue mem args v
          = evalIRValue mem args (IRValue.constPtr 0) + [4, 8, 1].sum) ∧
      ([4, 8, 1] = ([] : List Nat) → v = IRValue.constPtr 0)) ∧
    (∃ v : IRValue,
      GetPointerToMember true (some (IRValue.constPtr 0)) [] = some v ∧
      derefFree v = derefFree (IRValue.constPtr 0) ∧
      (∀ mem args : Nat → Nat,
        evalIRValue mem args v
          = evalIRValue mem args (IRValue.constPtr 0) + List.sum []) ∧
      (([] : List Nat) = [] → v = IRValue.constPtr 0)) :=
  ⟨C1_pointer_to_member_offset_sum (IRValue.constPtr 0) [4, 8, 1],
   C1_pointer_to_member_offset_sum (IRValue.constPtr 0) []⟩

/-- C9: inside an active instruction-insertion context, calling
GetPointerToMember with an absent (null) IR base value aborts fatally,
while the IR constant for a null host pointer is a valid base for which
address computation succeeds and yields the bare offset sum. -/
theorem C9_null_base_fatal_vs_null_constant (offsets : List Nat) :
    GetPointerToMember true none offsets = none ∧
    (∃ v : IRValue,
      GetPointerToMember true (some (IRValue.constPtr 0)) offsets = some v ∧
      ∀ mem args : Nat → Nat, evalIRValue mem args v = offsets.sum) := by
  refine ⟨rfl, offsets.foldl (fun acc o => IRValue.gepByte acc o) (IRValue.constPtr 0),
    rfl, ?_⟩
  intro mem args
  rw [evalIRValue_foldl_gep]
  show 0 + offsets.sum = offsets.sum
  omega

/-- Witness for C9 at the offset chain [12, 3]. -/
theorem C9_null_base_fatal_vs_null_constant_witness :
    GetPointerToMember true none [12, 3] = none ∧
    (∃ v : IRValue,
      GetPointerToMember true (some (IRValue.constPtr 0)) [12, 3] = some v ∧
      ∀ mem args : Nat → Nat, evalIRValue mem args v = [12, 3].sum) :=
  C9_null_base_fatal_vs_null_constant [12, 3]

/- ===== JIT execution engine manager model (spec section 4.7) ===== -/

/-- An IR function type: return type and parameter types. -/
structure FnSig where
  ret : IRType
  params : List IRType
deriving DecidableEq, Repr

/-- Modelled from the spec: the generator state of the missing codegen
core: a one-way building-to-compiled flag, the owned module (absent once
compiled), and the functions defined in the module with their
signatures. -/
structure CodeGen where
  compiled : Bool
  moduleRef : Option String
  definedFns : List (String × FnSig)
deriving DecidableEq, Repr

/-- Modelled from the spec: PrepareForExecution compiles the module,
transitions the generator to the compiled state, and makes the module
inaccessible (the module accessor subsequently returns an absent
reference). -/
def PrepareForExecution (g : CodeGen) : CodeGen :=
  ⟨true, none, g.definedFns⟩

/-- Outcome of requesting a typed function pointer: a fatal contract
violation, an absent value, or a callable handle. -/
inductive FnPtrResult where
  | fatalAbort : FnPtrResult
  | absent : FnPtrResult
  | handle (name : String) (sig : FnSig) : FnPtrResult
deriving DecidableEq, Repr

/-- Modelled from the spec: GetFunctionPointer of the missing codegen
core: valid only once compiled; a name that does not correspond to a
defined function yields an absent value; a defined function whose actual
signature differs from the requested one is a fatal precondition
violation; otherwise a callable handle is returned. -/
def GetFunctionPointer (g : CodeGen) (name : String) (sig : FnSig) :
    FnPtrResult :=
  if g.compiled = false then .fatalAbort
  else
    match g.definedFns.lookup name with
    | none => .absent
    | some actual => if actual = sig then .handle name sig else .fatalAbort

/-- C7: once the generator is compiled, GetFunctionPointer returns a
callable handle for every previously defined function when the requested
signature matches, aborts fatally when the requested signature mismatches,
returns an absent value for every name that does not correspond to a
defined function, and the module accessor returns an absent reference. -/
theorem C7_function_pointer_after_compile (g : CodeGen) (name : String)
    (sig : FnSig) :
    (PrepareForExecution g).moduleRef = none ∧
    ((PrepareForExecution g).definedFns.lookup name = some sig →
      GetFunctionPointer (PrepareForExecution g) name sig
        = FnPtrResult.handle name sig) ∧
    (∀ actual : FnSig,
      (PrepareForExecution g).definedFns.lookup name = some actual →
      actual ≠ sig →
      GetFunctionPointer (PrepareForExecution g) name sig
        = FnPtrResult.fatalAbort) ∧
    ((PrepareForExecution g).definedFns.lookup name = none →
      GetFunctionPointer (PrepareForExecution g) name sig
        = FnPtrResult.absent) := by
  refine ⟨rfl, ?_, ?_, ?_⟩
  · intro hfound
    have h : g.definedFns.lookup name = some sig := hfound
    show GetFunctionPointer ⟨true, none, g.definedFns⟩ name sig = _
    simp [GetFunctionPointer, h]
  · intro actual hfound hne
    have h : g.definedFns.lookup name = some actual := hfound
    show GetFunctionPointer ⟨true, none, g.definedFns⟩ name sig = _
    simp [GetFunctionPointer, h, hne]
  · intro hmissing
    have h : g.definedFns.lookup name = none := hmissing
    show GetFunctionPointer ⟨true, none, g.definedFns⟩ name sig = _
    simp [GetFunctionPointer, h]

/-- Witness for C7 on a generator with one defined function of signature
int(), exercising the matching request, a mismatched float() request, and
an unknown name. -/
theorem C7_function_pointer_after_compile_witness :
    ((PrepareForExecution
        ⟨false, some "test_module",
         [("simple_fn", ⟨IRType.intTy 32, []⟩)]⟩).definedFns.lookup "simple_fn"
      = some ⟨IRType.intTy 32, []⟩ →
      GetFunctionPointer
        (PrepareForExecution
          ⟨false, some "test_module",
           [("simple_fn", ⟨IRType.intTy 32, []⟩)]⟩) "simple_fn"
        ⟨IRType.intTy 32, []⟩
      = FnPtrResult.handle "simple_fn" ⟨IRType.intTy 32, []⟩) ∧
    (∀ actual : FnSig,
      (PrepareForExecution
        ⟨false, some "test_module",
         [("simple_fn", ⟨IRType.intTy 32, []⟩)]⟩).definedFns.lookup "simple_fn"
        = some actual →
      actual ≠ ⟨IRType.floatTy, []⟩ →
      GetFunctionPointer
        (PrepareForExecution
          ⟨false, some "test_module",
           [("simple_fn", ⟨IRType.intTy 32, []⟩)]⟩) "simple_fn"
        ⟨IRType.floatTy, []⟩
      = FnPtrResult.fatalAbort) ∧
    ((PrepareForExecution
        ⟨false, some "test_module",
         [("simple_fn", ⟨IRType.intTy 32, []⟩)]⟩).definedFns.lookup "foo"
      = none →
      GetFunctionPointer
        (PrepareForExecution
          ⟨false, some "test_module",
           [("simple_fn", ⟨IRType.intTy 32, []⟩)]⟩) "foo"
        ⟨IRType.voidTy, []⟩
      = FnPtrResult.absent) ∧
    (PrepareForExecution
        ⟨false, some "test_module",
         [("simple_fn", ⟨IRType.intTy 32, []⟩)]⟩).moduleRef = none :=
  ⟨(C7_function_pointer_after_compile
      ⟨false, some "test_module", [("simple_fn", ⟨IRType.intTy 32, []⟩)]⟩
      "simple_fn" ⟨IRType.intTy 32, []⟩).2.1,
   (C7_function_pointer_after_compile
      ⟨false, some "test_module", [("simple_fn", ⟨IRType.intTy 32, []⟩)]⟩
      "simple_fn" ⟨IRType.floatTy, []⟩).2.2.1,
   (C7_function_pointer_after_compile
      ⟨false, some "test_module", [("simple_fn", ⟨IRType.intTy 32, []⟩)]⟩
      "foo" ⟨IRType.voidTy, []⟩).2.2.2,
   (C7_function_pointer_after_compile
      ⟨false, some "test_module", [("simple_fn", ⟨IRType.intTy 32, []⟩)]⟩
      "simple_fn" ⟨IRType.intTy 32, []⟩).1⟩

end GpCodegen

namespace GpStorage

/- ===== Storage manager segment unlink model (md.c, absent source) ===== -/

/-- Number of possible concurrency levels of an append-only relation
(level 0 is the base relation file handled elsewhere). -/
def MAX_AOREL_CONCURRENCY : Nat := 128

/-- Multiplier separating the per-column ranges of segment file numbers. -/
def AOTupleId_MultiplierSegmentFileNum : Nat := 128

/-- Maximum number of columns of a relation. -/
def MaxHeapAttributeNumber : Nat := 1600

/-- Physical segment file number of a column at a concurrency level. -/
def segFileNum (col conc : Nat) : Nat :=
  col * AOTupleId_MultiplierSegmentFileNum + conc

/-- The per-column, per-concurrency-level segment files of a
column-oriented append-only relation: every column (0 up to
MaxHeapAttributeNumber exclusive) at every concurrency level (1 up to
MAX_AOREL_CONCURRENCY exclusive). -/
def aoSegCandidates : List Nat :=
  (List.range' 1 (MAX_AOREL_CONCURRENCY - 1)).flatMap (fun conc =>
    (List.range MaxHeapAttributeNumber).map (fun col => segFileNum col conc))

/-- Modelled from the spec: mdunlink_co of the missing md.c, whose
contract is to delete every existing per-column, per-concurrency-level
physical segment file for an append-only relation, tolerating
already-absent files.  Given which files exist, it returns the sequence
of unlink calls performed: for each concurrency level and each column it
checks existence and unlinks the file only when present. -/
def mdunlink_co (fileExists : Nat → Bool) : List Nat :=
  (List.range' 1 (MAX_AOREL_CONCURRENCY - 1)).flatMap (fun conc =>
    ((List.range MaxHeapAttributeNumber).map
      (fun col => segFileNum col conc)).filter fileExists)

theorem filter_bind_comm {α β : Type} (l : List α) (f : α → List β)
    (p : β → Bool) :
    (l.flatMap f).filter p = l.flatMap (fun a => (f a).filter p) := by
  induction l with
  | nil => rfl
  | cons a l ih =>
      simp only [List.flatMap_cons, List.filter_append, ih]

theorem mdunlink_co_eq_filter (fileExists : Nat → Bool) :
    mdunlink_co fileExists = aoSegCandidates.filter fileExists :=
  (filter_bind_comm _ _ _).symm

theorem segFileNum_mod (col conc : Nat)
    (h : conc < AOTupleId_MultiplierSegmentFileNum) :
    segFileNum col conc % AOTupleId_MultiplierSegmentFileNum = conc := by
  simp only [segFileNum, AOTupleId_MultiplierSegmentFileNum] at h ⊢
  omega

theorem mem_aoSegCandidates (f : Nat) :
    f ∈ aoSegCandidates ↔
      ∃ col conc : Nat, col < MaxHeapAttributeNumber ∧ 1 ≤ conc ∧
        conc < MAX_AOREL_CONCURRENCY ∧ f = segFileNum col conc := by
  simp only [aoSegCandidates, List.mem_flatMap, List.mem_map, List.mem_range,
    List.mem_range'_1]
  constructor
  · rintro ⟨conc, ⟨h1, h2⟩, col, hcol, rfl⟩
    exact ⟨col, conc, hcol, h1, by simpa [MAX_AOREL_CONCURRENCY] using h2, rfl⟩
  · rintro ⟨col, conc, hcol, h1, h2, rfl⟩
    exact ⟨conc, ⟨h1, by simpa [MAX_AOREL_CONCURRENCY] using h2⟩, col, hcol, rfl⟩

theorem aoSegCandidates_nodup : aoSegCandidates.Nodup := by
  rw [aoSegCandidates]
  rw [List.nodup_flatMap]
  constructor
  · intro conc hconc
    refine List.Nodup.map ?_ (List.nodup_range _)
    intro a b hab
    simp only [segFileNum, AOTupleId_MultiplierSegmentFileNum] at hab
    omega
  · have hnd : (List.range' 1 (MAX_AOREL_CONCURRENCY - 1)).Nodup :=
      List.nodup_range' ..
    refine hnd.pairwise_of_forall_ne ?_
    intro conc hconc conc2 hconc2 hne
    rw [List.mem_range'_1] at hconc hconc2
    simp only [Function.onFun]
    rw [List.disjoint_left]
    rintro f hf hf2
    obtain ⟨col, hcol, rfl⟩ := List.mem_map.1 hf
    obtain ⟨col2, hcol2, heq⟩ := List.mem_map.1 hf2
    have hm1 : segFileNum col conc % AOTupleId_MultiplierSegmentFileNum = conc :=
      segFileNum_mod col conc (by
        simp only [AOTupleId_MultiplierSegmentFileNum]
        simp only [MAX_AOREL_CONCURRENCY] at hconc
        omega)
    have hm2 : segFileNum col2 conc2 % AOTupleId_MultiplierSegmentFileNum = conc2 :=
      segFileNum_mod col2 conc2 (by
        simp only [AOTupleId_MultiplierSegmentFileNum]
        simp only [MAX_AOREL_CONCURRENCY] at hconc2
        omega)
    rw [heq] at hm2
    exact hne (hm1.symm.trans hm2)

/-- C8: for every configuration of existing per-column,
per-concurrency-level segment files of an append-only relation,
mdunlink_co unlinks exactly the files that exist (one unlink call per
existing file, tolerating already-absent files), and in particular
performs zero unlink calls when no segment file exists. -/
theorem C8_mdunlink_co_exact (fileExists : Nat → Bool) :
    (∀ f : Nat, f ∈ mdunlink_co fileExists ↔
      (f ∈ aoSegCandidates ∧ fileExists f = true)) ∧
    (mdunlink_co fileExists).Nodup ∧
    (∀ f : Nat, f ∈ aoSegCandidates → fileExists f = true →
      (mdunlink_co fileExists).count f = 1) ∧
    ((∀ f ∈ aoSegCandidates, fileExists f = false) →
      mdunlink_co fileExists = []) := by
  rw [mdunlink_co_eq_filter]
  refine ⟨?_, ?_, ?_, ?_⟩
  · intro f
    simp [List.mem_filter]
  · exact aoSegCandidates_nodup.filter _
  · intro f hmem hex
    refine List.count_eq_one_of_mem (aoSegCandidates_nodup.filter _) ?_
    exact List.mem_filter.2 ⟨hmem, hex⟩
  · intro hnone
    rw [List.filter_eq_nil_iff]
    intro f hf
    simp [hnone f hf]

/-- Witness for C8: a filesystem where only segment file 129 (column 1 at
concurrency level 1) exists is unlinked exactly once, and a filesystem
with no segment files produces zero unlink calls. -/
theorem C8_mdunlink_co_exact_witness :
    ((129 ∈ mdunlink_co (fun f => decide (f = 129))) ↔
      (129 ∈ aoSegCandidates ∧ decide ((129 : Nat) = 129) = true)) ∧
    (mdunlink_co (fun f => decide (f = 129))).count 129 = 1 ∧
    mdunlink_co (fun _ => false) = [] := by
  have h129 : (129 : Nat) ∈ aoSegCandidates := by
    rw [mem_aoSegCandidates]
    exact ⟨1, 1, by decide, by decide, by decide, by decide⟩
  refine ⟨(C8_mdunlink_co_exact (fun f => decide (f = 129))).1 129, ?_, ?_⟩
  · exact (C8_mdunlink_co_exact (fun f => decide (f = 129))).2.2.1 129 h129
      (by decide)
  · exact (C8_mdunlink_co_exact (fun _ => false)).2.2.2 (fun f _ => rfl)

end GpStorage

namespace GpWal

/- ===== Append-only WAL record descriptor (appendonlydesc.c) ===== -/

/-- Modelled from the spec: the numeric value of XLR_INFO_MASK comes from
the xlog header, which is absent from the sources; the low four info bits
are reserved for the WAL layer. -/
def XLR_INFO_MASK : Nat := 0x0F

/-- Modelled from the spec: record code of an append-only insert record,
from the cdbappendonlyxlog header, absent from the sources. -/
def XLOG_APPENDONLY_INSERT : Nat := 0x00

/-- Modelled from the spec: record code of an append-only truncate record,
from the cdbappendonlyxlog header, absent from the sources. -/
def XLOG_APPENDONLY_TRUNCATE : Nat := 0x10

/-- A relation file node: tablespace, database, and relation OIDs. -/
structure RelFileNode where
  spcNode : Nat
  dbNode : Nat
  relNode : Nat
deriving DecidableEq, Repr

/-- Target of an append-only WAL record: file node, segment file number,
and offset. -/
structure XlAoTarget where
  node : RelFileNode
  segment_filenum : Nat
  offset : Int
deriving DecidableEq, Repr

/-- An xl_ao_insert record: its target plus the length of the inserted
data actually carried by the record (never printed by the descriptor). -/
structure XlAoInsertRec where
  target : XlAoTarget
  dataLen : Nat
deriving DecidableEq, Repr

/-- An xl_ao_truncate record: just the target. -/
structure XlAoTruncateRec where
  target : XlAoTarget
deriving DecidableEq, Repr

/-- The raw record bytes, viewed as either record kind (the C code casts
the same char pointer according to the branch taken). -/
structure AORecordBytes where
  asInsert : XlAoInsertRec
  asTruncate : XlAoTruncateRec
deriving DecidableEq, Repr

/-- StringInfo append, as used by the descriptor routines. -/
def appendStringInfo (buf s : String) : String := buf ++ s

/-- appendonly_desc from appendonlydesc.c: masks the info byte with the
complement of XLR_INFO_MASK, then appends an insert description with a
literal 0 length, a truncate description, or the string UNKNOWN. -/
def appendonly_desc (buf : String) (xl_info : Nat) (record : AORecordBytes) :
    String :=
  let info := Nat.land xl_info (255 - XLR_INFO_MASK)
  if info = XLOG_APPENDONLY_INSERT then
    appendStringInfo buf
      ("insert: rel " ++ toString record.asInsert.target.node.spcNode ++ "/"
        ++ toString record.asInsert.target.node.dbNode ++ "/"
        ++ toString record.asInsert.target.node.relNode ++ " seg/offset:"
        ++ toString record.asInsert.target.segment_filenum ++ "/"
        ++ toString record.asInsert.target.offset ++ " len:"
        ++ toString (0 : Nat))
  else if info = XLOG_APPENDONLY_TRUNCATE then
    appendStringInfo buf
      ("truncate: rel " ++ toString record.asTruncate.target.node.spcNode ++ "/"
        ++ toString record.asTruncate.target.node.dbNode ++ "/"
        ++ toString record.asTruncate.target.node.relNode ++ " seg/offset:"
        ++ toString record.asTruncate.target.segment_filenum ++ "/"
        ++ toString record.asTruncate.target.offset)
  else
    appendStringInfo buf "UNKNOWN"

/-- C10: for every insert record the appended description ends with a
length field holding the literal 0 irrespective of the record's actual
data length, and for every masked info value that is neither the insert
nor the truncate code the routine appends exactly the string UNKNOWN. -/
theorem C10_appendonly_desc_literal_len (buf : String) (xl_info : Nat)
    (record : AORecordBytes) :
    (Nat.land xl_info (255 - XLR_INFO_MASK) = XLOG_APPENDONLY_INSERT →
      ∃ core : String, ∀ n : Nat,
        appendonly_desc buf xl_info
            ⟨⟨record.asInsert.target, n⟩, record.asTruncate⟩
          = buf ++ ((core ++ " len:") ++ "0")) ∧
    (Nat.land xl_info (255 - XLR_INFO_MASK) ≠ XLOG_APPENDONLY_INSERT →
     Nat.land xl_info (255 - XLR_INFO_MASK) ≠ XLOG_APPENDONLY_TRUNCATE →
      appendonly_desc buf xl_info record = buf ++ "UNKNOWN") := by
  constructor
  · intro h
    refine ⟨"insert: rel " ++ toString record.asInsert.target.node.spcNode ++ "/"
        ++ toString record.asInsert.target.node.dbNode ++ "/"
        ++ toString record.asInsert.target.node.relNode ++ " seg/offset:"
        ++ toString record.asInsert.target.segment_filenum ++ "/"
        ++ toString record.asInsert.target.offset, ?_⟩
    intro n
    simp only [appendonly_desc, appendStringInfo]
    rw [if_pos h]
    rfl
  · intro h1 h2
    simp only [appendonly_desc, appendStringInfo]
    rw [if_neg h1, if_neg h2]

/-- Witness for C10 at an insert record (info byte 0) and at the unknown
info byte 32. -/
theorem C10_appendonly_desc_literal_len_witness :
    (∃ core : String, ∀ n : Nat,
      appendonly_desc "" 0 ⟨⟨⟨⟨1, 2, 3⟩, 4, 5⟩, n⟩, ⟨⟨⟨1, 2, 3⟩, 4, 5⟩⟩⟩
        = "" ++ ((core ++ " len:") ++ "0")) ∧
    appendonly_desc "" 32 ⟨⟨⟨⟨1, 2, 3⟩, 4, 5⟩, 99⟩, ⟨⟨⟨1, 2, 3⟩, 4, 5⟩⟩⟩
      = "" ++ "UNKNOWN" :=
  ⟨(C10_appendonly_desc_literal_len "" 0
      ⟨⟨⟨⟨1, 2, 3⟩, 4, 5⟩, 99⟩, ⟨⟨⟨1, 2, 3⟩, 4, 5⟩⟩⟩).1 (by decide),
   (C10_appendonly_desc_literal_len "" 32
      ⟨⟨⟨⟨1, 2, 3⟩, 4, 5⟩, 99⟩, ⟨⟨⟨1, 2, 3⟩, 4, 5⟩⟩⟩).2 (by decide) (by decide)⟩

end GpWal
